import Mathlib

/-!
Shallow embedding of `src/image.rs` from the `xiapi` crate: a typed,
bounds-checked view `Image<T>` over a camera-driver image descriptor
`XI_IMG`, with the operations `new`, `pixel`, `width`, `height` and the
`Default` instance.

Modelling conventions:
* Machine integers are `Nat`, reduced modulo `2 ^ 64` wherever the Rust
  code performs `usize` arithmetic that may wrap.
* A raw pointer is modelled by its address (a `Nat`); address `0` is the
  null pointer.
* `pixel` returns the byte address of the referenced pixel (`some addr`)
  instead of the reference `&T` itself; `none` mirrors Rust's `None`.
* `size_of::<T>()` and `size_of::<XI_IMG>()` are platform constants that
  Lean cannot compute, so they are passed as explicit `Nat` arguments
  (`S` resp. `szXI`).
-/

set_option autoImplicit false

/-- Number of values of the 64-bit `usize` type of the compilation target. -/
def USIZE : Nat := 2 ^ 64

/-- Model of the driver descriptor `XI_IMG` (declared in the external
`xiapi_sys` crate).  Only the fields this component reads or writes are
named; all the remaining driver-private fields are collapsed into the
single field `other`, which the component never touches. -/
structure XI_IMG where
  size : Nat
  width : Nat
  height : Nat
  padding_x : Nat
  bp : Nat
  other : Nat
  deriving DecidableEq

/-- Descriptor with every field zero, mirroring
`MaybeUninit::<XI_IMG>::zeroed().assume_init()`. -/
def XI_IMG.zeroed : XI_IMG :=
  { size := 0, width := 0, height := 0, padding_x := 0, bp := 0, other := 0 }

/-- Image view, generic over the pixel element type `T`.  In the source,
`T` is only a phantom type tag (`pix_type: PhantomData<T>` holds no data),
so the structure stores the descriptor alone. -/
structure Image (T : Type) where
  xi_img : XI_IMG
  deriving DecidableEq

/-- Embedding of `Image::<T>::new`: zero every byte of the descriptor and
then set its `size` field to `size_of::<XI_IMG>()`, here the parameter
`szXI`. -/
def Image.new (T : Type) (szXI : Nat) : Image T :=
  { xi_img := { XI_IMG.zeroed with size := szXI } }

/-- Row stride in bytes as computed inside `Image::pixel`:
`self.xi_img.width as usize * size_of::<T>() + self.xi_img.padding_x as usize`
in `usize` arithmetic.  `S` stands for `size_of::<T>()`. -/
def Image.stride {T : Type} (S : Nat) (img : Image T) : Nat :=
  ((img.xi_img.width * S) % USIZE + img.xi_img.padding_x) % USIZE

/-- Byte offset of pixel `(x, y)` from the buffer base as computed inside
`Image::pixel`: `(stride * y) + (x * size_of::<T>())` in `usize`
arithmetic. -/
def Image.offset {T : Type} (S : Nat) (img : Image T) (x y : Nat) : Nat :=
  ((Image.stride S img * y) % USIZE + (x * S) % USIZE) % USIZE

/-- Embedding of `Image::pixel`.  Steps of the source, in order: read the
buffer pointer `self.xi_img.bp`; return `None` if it is null; return
`None` if `x >= self.xi_img.width as usize || y >= self.xi_img.height as usize`;
compute `stride` and `offset`; form `pixel_pointer = buffer.add(offset)`
and return `pixel_pointer.as_ref()`, which is `None` exactly when that
pointer is null and otherwise a reference whose byte address is the
pointer's address. -/
def Image.pixel {T : Type} (S : Nat) (img : Image T) (x y : Nat) : Option Nat :=
  let buffer := img.xi_img.bp
  if buffer = 0 then
    none
  else if img.xi_img.width ≤ x ∨ img.xi_img.height ≤ y then
    none
  else
    let pixel_pointer := (buffer + Image.offset S img x y) % USIZE
    if pixel_pointer = 0 then none else some pixel_pointer

/-- Embedding of `Image::width`: returns `self.xi_img.width` unmodified. -/
def Image.width {T : Type} (img : Image T) : Nat :=
  img.xi_img.width

/-- Embedding of `Image::height`: returns `self.xi_img.height` unmodified. -/
def Image.height {T : Type} (img : Image T) : Nat :=
  img.xi_img.height

/-- Embedding of `impl<T> Default for Image<T>`: `default()` simply calls
`Self::new()`. -/
def Image.default (T : Type) (szXI : Nat) : Image T :=
  Image.new T szXI

/-- State-passing form of the method call `self.pixel(x, y)`.  The source
method takes `&self` and its body performs no write to `self` (and `Image`
has no interior mutability), so the translated call returns the result
together with the unchanged state. -/
def Image.pixelCall {T : Type} (S : Nat) (img : Image T) (x y : Nat) :
    Option Nat × Image T :=
  (Image.pixel S img x y, img)

/-- State-passing form of the method call `self.width()`; the body only
reads `self`. -/
def Image.widthCall {T : Type} (img : Image T) : Nat × Image T :=
  (Image.width img, img)

/-- State-passing form of the method call `self.height()`; the body only
reads `self`. -/
def Image.heightCall {T : Type} (img : Image T) : Nat × Image T :=
  (Image.height img, img)

/-- Concrete populated view used by the witnesses: a 2×2 image of 1-byte
pixels with one padding byte per row, buffer at address 100. -/
def imgEx : Image Unit :=
  { xi_img :=
    { size := 0, width := 2, height := 2, padding_x := 1, bp := 100, other := 0 } }

/-- Concrete padding-free view used by the witnesses: 3×1 image of 1-byte
pixels, no row padding, buffer at address 40. -/
def img0pad : Image Unit :=
  { xi_img :=
    { size := 0, width := 3, height := 1, padding_x := 0, bp := 40, other := 0 } }

/-! ## Helper lemmas -/

/-- Helper: the bytes of one in-bounds pixel fit inside the row's pixel
data: `x * S + S ≤ W * S` whenever `x < W`. -/
theorem pixel_bytes_le_row (S : Nat) {W x : Nat} (hx : x < W) :
    x * S + S ≤ W * S := by
  have h := mul_le_mul_right' (Nat.succ_le_of_lt hx) S
  rwa [Nat.succ_mul] at h

/-- Helper: the byte range of an in-bounds pixel ends no later than the
end of the image data, `stride * height`, in exact arithmetic. -/
theorem offset_add_size_le (S P : Nat) {W H x y : Nat} (hx : x < W) (hy : y < H) :
    (W * S + P) * y + x * S + S ≤ (W * S + P) * H := by
  have h1 := pixel_bytes_le_row S hx
  have h2 : (W * S + P) * (y + 1) ≤ (W * S + P) * H :=
    mul_le_mul_left' (Nat.succ_le_of_lt hy) (W * S + P)
  have h3 : (W * S + P) * (y + 1) = (W * S + P) * y + (W * S + P) := by ring
  omega

/-- Helper: for a positive stride, the exact offset of an in-bounds pixel
is strictly below `stride * height`. -/
theorem offset_lt_row_end (S P : Nat) {W H x y : Nat} (hx : x < W) (hy : y < H)
    (hpos : 0 < W * S + P) :
    (W * S + P) * y + x * S < (W * S + P) * H := by
  have h1 := pixel_bytes_le_row S hx
  have h2 : (W * S + P) * (y + 1) ≤ (W * S + P) * H :=
    mul_le_mul_left' (Nat.succ_le_of_lt hy) (W * S + P)
  have h3 : (W * S + P) * (y + 1) = (W * S + P) * y + (W * S + P) := by ring
  rcases Nat.eq_zero_or_pos S with hS | hS
  · subst hS
    have hD : x * 0 = 0 := Nat.mul_zero x
    have hE : W * 0 = 0 := Nat.mul_zero W
    omega
  · omega

/-- Helper: when `width * S + padding_x` is `usize`-representable, the
wrapped stride equals the exact one. -/
theorem stride_eq {T : Type} (S : Nat) (img : Image T)
    (h : img.xi_img.width * S + img.xi_img.padding_x < USIZE) :
    Image.stride S img = img.xi_img.width * S + img.xi_img.padding_x := by
  have hWS : img.xi_img.width * S < USIZE := by omega
  unfold Image.stride
  rw [Nat.mod_eq_of_lt hWS, Nat.mod_eq_of_lt h]

/-- Helper: when the exact offset is `usize`-representable, the wrapped
offset equals the exact one. -/
theorem offset_eq {T : Type} (S : Nat) (img : Image T) (x y : Nat)
    (h : (img.xi_img.width * S + img.xi_img.padding_x) * y + x * S < USIZE) :
    Image.offset S img x y =
      (img.xi_img.width * S + img.xi_img.padding_x) * y + x * S := by
  rcases Nat.eq_zero_or_pos y with hy | hy
  · subst hy
    have hx2 : x * S < USIZE := by omega
    unfold Image.offset
    simp [Nat.mod_eq_of_lt hx2]
  · have hst : img.xi_img.width * S + img.xi_img.padding_x < USIZE := by
      have hle : img.xi_img.width * S + img.xi_img.padding_x ≤
          (img.xi_img.width * S + img.xi_img.padding_x) * y :=
        le_mul_of_one_le_right (Nat.zero_le _) hy
      omega
    have hsy : (img.xi_img.width * S + img.xi_img.padding_x) * y < USIZE := by omega
    have hx2 : x * S < USIZE := by omega
    unfold Image.offset
    rw [stride_eq S img hst, Nat.mod_eq_of_lt hsy, Nat.mod_eq_of_lt hx2,
      Nat.mod_eq_of_lt h]

/-- Helper: `pixel` returns `none` whenever one of its three explicit
checks fires: null buffer, `x` out of bounds, or `y` out of bounds. -/
theorem pixel_none_cases {T : Type} (S : Nat) (img : Image T) (x y : Nat)
    (h : img.xi_img.bp = 0 ∨ (img.xi_img.width ≤ x ∨ img.xi_img.height ≤ y)) :
    Image.pixel S img x y = none := by
  simp only [Image.pixel]
  rcases h with h | h
  · rw [if_pos h]
  · by_cases hbp : img.xi_img.bp = 0
    · rw [if_pos hbp]
    · rw [if_neg hbp, if_pos h]

/-- Helper: shape of `pixel` when the null check and both bounds checks
pass: the result is the wrapped pixel address, unless that address itself
is null. -/
theorem pixel_of_inbounds {T : Type} (S : Nat) (img : Image T) (x y : Nat)
    (hbp : img.xi_img.bp ≠ 0) (hx : x < img.xi_img.width)
    (hy : y < img.xi_img.height)
    (hp : (img.xi_img.bp + Image.offset S img x y) % USIZE ≠ 0) :
    Image.pixel S img x y =
      some ((img.xi_img.bp + Image.offset S img x y) % USIZE) := by
  have hb : ¬ (img.xi_img.width ≤ x ∨ img.xi_img.height ≤ y) := by omega
  simp only [Image.pixel]
  rw [if_neg hbp, if_neg hb, if_neg hp]

/-- Helper: for in-bounds coordinates on a view whose buffer span
`bp + stride * height` fits in the address space, the exact pixel address
is `usize`-representable. -/
theorem addr_lt_usize {T : Type} (S : Nat) (img : Image T) (x y : Nat)
    (hx : x < img.xi_img.width) (hy : y < img.xi_img.height)
    (hbuf : img.xi_img.bp +
      (img.xi_img.width * S + img.xi_img.padding_x) * img.xi_img.height ≤ USIZE)
    (hbp64 : img.xi_img.bp < USIZE) :
    img.xi_img.bp +
      ((img.xi_img.width * S + img.xi_img.padding_x) * y + x * S) < USIZE := by
  rcases Nat.eq_zero_or_pos (img.xi_img.width * S + img.xi_img.padding_x) with hz | hz
  · have hxs : x * S ≤ img.xi_img.width * S := mul_le_mul_right' (le_of_lt hx) S
    have hy0 : (img.xi_img.width * S + img.xi_img.padding_x) * y = 0 := by
      rw [hz]; exact Nat.zero_mul y
    omega
  · have hlt := offset_lt_row_end S img.xi_img.padding_x hx hy hz
    omega

/-! ## Claim theorems -/

/-- C1: for every view with a non-null buffer and every in-bounds
coordinate pair, provided the resulting byte address is
`usize`-representable (as it is for any buffer that actually exists in
memory), `pixel(x, y)` yields exactly the byte address
`base + (width * S + padding_x) * y + x * S`: the stride is
`width * S + padding_x` and the offset is `stride * y + x * S`. -/
theorem pixel_byte_address {T : Type} (S : Nat) (img : Image T) (x y : Nat)
    (hbp : img.xi_img.bp ≠ 0)
    (hx : x < img.xi_img.width) (hy : y < img.xi_img.height)
    (hrep : img.xi_img.bp +
      ((img.xi_img.width * S + img.xi_img.padding_x) * y + x * S) < USIZE) :
    Image.pixel S img x y =
      some (img.xi_img.bp +
        ((img.xi_img.width * S + img.xi_img.padding_x) * y + x * S)) := by
  have hoffR : (img.xi_img.width * S + img.xi_img.padding_x) * y + x * S < USIZE := by
    omega
  have he := offset_eq S img x y hoffR
  have hmod : (img.xi_img.bp + Image.offset S img x y) % USIZE =
      img.xi_img.bp +
        ((img.xi_img.width * S + img.xi_img.padding_x) * y + x * S) := by
    rw [he]; exact Nat.mod_eq_of_lt hrep
  have hp : (img.xi_img.bp + Image.offset S img x y) % USIZE ≠ 0 := by
    rw [hmod]; omega
  rw [pixel_of_inbounds S img x y hbp hx hy hp, hmod]

/-- Witness for C1 on the concrete view `imgEx` at `(1, 1)` with `S = 1`. -/
theorem pixel_byte_address_witness :
    Image.pixel 1 imgEx 1 1 =
      some (imgEx.xi_img.bp +
        ((imgEx.xi_img.width * 1 + imgEx.xi_img.padding_x) * 1 + 1 * 1)) :=
  pixel_byte_address 1 imgEx 1 1 (by decide) (by decide) (by decide) (by decide)

/-- C2: for a populated view (non-null, representable buffer pointer)
whose buffer of `stride * height` bytes fits in the address space,
`pixel(x, y)` is present exactly for `x < width` and `y < height`, and
absent for every other coordinate pair, however large. -/
theorem pixel_some_iff_inbounds {T : Type} (S : Nat) (img : Image T)
    (hbp : img.xi_img.bp ≠ 0) (hbp64 : img.xi_img.bp < USIZE)
    (hbuf : img.xi_img.bp +
      (img.xi_img.width * S + img.xi_img.padding_x) * img.xi_img.height ≤ USIZE) :
    ∀ x y, (Image.pixel S img x y).isSome = true ↔
      (x < img.xi_img.width ∧ y < img.xi_img.height) := by
  intro x y
  constructor
  · intro hs
    by_contra hc
    have h : img.xi_img.width ≤ x ∨ img.xi_img.height ≤ y := by omega
    rw [pixel_none_cases S img x y (Or.inr h)] at hs
    simp at hs
  · rintro ⟨hx, hy⟩
    have haddr := addr_lt_usize S img x y hx hy hbuf hbp64
    have hoffR : (img.xi_img.width * S + img.xi_img.padding_x) * y + x * S < USIZE := by
      omega
    have he := offset_eq S img x y hoffR
    have hp : (img.xi_img.bp + Image.offset S img x y) % USIZE ≠ 0 := by
      rw [he, Nat.mod_eq_of_lt haddr]
      omega
    rw [pixel_of_inbounds S img x y hbp hx hy hp]
    rfl

/-- Witness for C2 on the concrete view `imgEx` at `(1, 1)` with `S = 1`. -/
theorem pixel_some_iff_inbounds_witness :
    (Image.pixel 1 imgEx 1 1).isSome = true ↔
      (1 < imgEx.xi_img.width ∧ 1 < imgEx.xi_img.height) :=
  pixel_some_iff_inbounds 1 imgEx (by decide) (by decide) (by decide) 1 1

/-- C3: whenever one of the explicitly checked preconditions is violated
(null buffer pointer, `x ≥ width`, or `y ≥ height`), `pixel(x, y)` is
`none` — never an error; the embedding of `pixel` is a total function, so
no panic or undefined behavior can occur on this path. -/
theorem pixel_none_of_precondition_violation {T : Type} (S : Nat) (img : Image T)
    (x y : Nat)
    (h : img.xi_img.bp = 0 ∨ (img.xi_img.width ≤ x ∨ img.xi_img.height ≤ y)) :
    Image.pixel S img x y = none :=
  pixel_none_cases S img x y h

/-- Witness for C3 on the concrete view `imgEx` with `x = width`. -/
theorem pixel_none_of_precondition_violation_witness :
    Image.pixel 1 imgEx 2 0 = none :=
  pixel_none_of_precondition_violation 1 imgEx 2 0 (Or.inr (Or.inl (by decide)))

/-- C4: a freshly constructed (unpopulated) view of any pixel type has
`width() = 0`, `height() = 0`, and `pixel(x, y)` absent for every
coordinate pair, `(0, 0)` included. -/
theorem new_view_zero_and_pixel_none (T : Type) (szXI S x y : Nat) :
    Image.width (Image.new T szXI) = 0 ∧
    Image.height (Image.new T szXI) = 0 ∧
    Image.pixel S (Image.new T szXI) x y = none :=
  ⟨rfl, rfl, rfl⟩

/-- C5: the empty constructor zero-initializes every descriptor field
except `size`, which it sets to `size_of::<XI_IMG>()` (the platform
constant passed here as `szXI`). -/
theorem new_descriptor_zeroed_except_size (T : Type) (szXI : Nat) :
    (Image.new T szXI).xi_img.size = szXI ∧
    (Image.new T szXI).xi_img.width = 0 ∧
    (Image.new T szXI).xi_img.height = 0 ∧
    (Image.new T szXI).xi_img.padding_x = 0 ∧
    (Image.new T szXI).xi_img.bp = 0 ∧
    (Image.new T szXI).xi_img.other = 0 :=
  ⟨rfl, rfl, rfl, rfl, rfl, rfl⟩

/-- C6: with `padding_x = 0` the computed stride is exactly `width * S`
(given that product is `usize`-representable); and for any `padding_x`,
the byte range of the pixel returned for an in-bounds coordinate pair
lies inside row `y`'s pixel-data region
`[stride * y, stride * y + width * S)`, so no byte of any row's padding
region is ever addressed. -/
theorem stride_exact_and_padding_never_addressed (T : Type) (S : Nat) :
    (∀ img : Image T, img.xi_img.padding_x = 0 →
      img.xi_img.width * S < USIZE →
      Image.stride S img = img.xi_img.width * S) ∧
    (∀ (img : Image T) (x y : Nat),
      x < img.xi_img.width → y < img.xi_img.height →
      (img.xi_img.width * S + img.xi_img.padding_x) * img.xi_img.height < USIZE →
      Image.stride S img * y ≤ Image.offset S img x y ∧
      Image.offset S img x y + S ≤ Image.stride S img * y + img.xi_img.width * S) := by
  constructor
  · intro img hP hlt
    have h : img.xi_img.width * S + img.xi_img.padding_x < USIZE := by
      rw [hP]; simpa using hlt
    rw [stride_eq S img h, hP]
    exact Nat.add_zero _
  · intro img x y hx hy hov
    have hH : 0 < img.xi_img.height := Nat.lt_of_le_of_lt (Nat.zero_le y) hy
    have hle : img.xi_img.width * S + img.xi_img.padding_x ≤
        (img.xi_img.width * S + img.xi_img.padding_x) * img.xi_img.height :=
      le_mul_of_one_le_right (Nat.zero_le _) hH
    have hb := offset_add_size_le S img.xi_img.padding_x hx hy
    have hst := stride_eq S img (by omega)
    have he := offset_eq S img x y (by omega)
    have hrow := pixel_bytes_le_row S hx
    rw [hst, he]
    exact ⟨Nat.le_add_right _ _, by omega⟩

/-- Witness for C6: part one on the padding-free view `img0pad`, part two
on `imgEx` at `(1, 1)`, both with `S = 1`. -/
theorem stride_exact_and_padding_never_addressed_witness :
    Image.stride 1 img0pad = img0pad.xi_img.width * 1 ∧
    Image.offset 1 imgEx 1 1 + 1 ≤
      Image.stride 1 imgEx * 1 + imgEx.xi_img.width * 1 :=
  ⟨(stride_exact_and_padding_never_addressed Unit 1).1 img0pad rfl (by decide),
   ((stride_exact_and_padding_never_addressed Unit 1).2 imgEx 1 1 (by decide)
     (by decide) (by decide)).2⟩

/-- C7: every coordinate pair that passes the bounds checks yields a byte
range `[offset, offset + S)` contained in `[0, stride * height)`; hence,
for a buffer of at least `stride * height` bytes at the non-null,
representable base `bp` (so that the address arithmetic cannot wrap), the
read is a `some` whose whole pixel lies inside
`[bp, bp + stride * height)`. -/
theorem pixel_read_within_buffer {T : Type} (S : Nat) (img : Image T) (x y : Nat)
    (hx : x < img.xi_img.width) (hy : y < img.xi_img.height)
    (hbp : img.xi_img.bp ≠ 0) (hbp64 : img.xi_img.bp < USIZE)
    (hbuf : img.xi_img.bp +
      (img.xi_img.width * S + img.xi_img.padding_x) * img.xi_img.height ≤ USIZE) :
    Image.offset S img x y + S ≤ Image.stride S img * img.xi_img.height ∧
    ∃ a, Image.pixel S img x y = some a ∧
      img.xi_img.bp ≤ a ∧
      a + S ≤ img.xi_img.bp + Image.stride S img * img.xi_img.height := by
  have hH : 0 < img.xi_img.height := Nat.lt_of_le_of_lt (Nat.zero_le y) hy
  have hle : img.xi_img.width * S + img.xi_img.padding_x ≤
      (img.xi_img.width * S + img.xi_img.padding_x) * img.xi_img.height :=
    le_mul_of_one_le_right (Nat.zero_le _) hH
  have hbp1 : 0 < img.xi_img.bp := Nat.pos_of_ne_zero hbp
  have hb := offset_add_size_le S img.xi_img.padding_x hx hy
  have haddr := addr_lt_usize S img x y hx hy hbuf hbp64
  have hst := stride_eq S img (by omega)
  have he := offset_eq S img x y (by omega)
  constructor
  · rw [hst, he]; omega
  · have hmod : (img.xi_img.bp + Image.offset S img x y) % USIZE =
        img.xi_img.bp +
          ((img.xi_img.width * S + img.xi_img.padding_x) * y + x * S) := by
      rw [he]; exact Nat.mod_eq_of_lt haddr
    have hp : (img.xi_img.bp + Image.offset S img x y) % USIZE ≠ 0 := by
      rw [hmod]; omega
    refine ⟨img.xi_img.bp +
      ((img.xi_img.width * S + img.xi_img.padding_x) * y + x * S), ?_, ?_, ?_⟩
    · rw [pixel_of_inbounds S img x y hbp hx hy hp, hmod]
    · exact Nat.le_add_right _ _
    · rw [hst]; omega

/-- Witness for C7 on the concrete view `imgEx` at `(1, 1)` with `S = 1`. -/
theorem pixel_read_within_buffer_witness :
    Image.offset 1 imgEx 1 1 + 1 ≤ Image.stride 1 imgEx * imgEx.xi_img.height ∧
    ∃ a, Image.pixel 1 imgEx 1 1 = some a ∧
      imgEx.xi_img.bp ≤ a ∧
      a + 1 ≤ imgEx.xi_img.bp + Image.stride 1 imgEx * imgEx.xi_img.height :=
  pixel_read_within_buffer 1 imgEx 1 1 (by decide) (by decide) (by decide)
    (by decide) (by decide)

/-- C8: accessor calls are idempotent and side-effect-free: in the
state-passing embedding of the `&self` method calls, the post-state of
`pixelCall`, `widthCall` and `heightCall` equals the pre-state (also field
by field for `width`, `height`, `padding_x` and the buffer pointer), and a
repeated `pixelCall` with the same coordinates on the post-state of a
first call returns the same result. -/
theorem accessors_idempotent_no_side_effects {T : Type} (S : Nat) (img : Image T)
    (x y : Nat) :
    (Image.pixelCall S (Image.pixelCall S img x y).2 x y).1 =
      (Image.pixelCall S img x y).1 ∧
    (Image.pixelCall S img x y).2 = img ∧
    (Image.widthCall img).2 = img ∧
    (Image.heightCall img).2 = img ∧
    (Image.pixelCall S img x y).2.xi_img.width = img.xi_img.width ∧
    (Image.pixelCall S img x y).2.xi_img.height = img.xi_img.height ∧
    (Image.pixelCall S img x y).2.xi_img.padding_x = img.xi_img.padding_x ∧
    (Image.pixelCall S img x y).2.xi_img.bp = img.xi_img.bp :=
  ⟨rfl, rfl, rfl, rfl, rfl, rfl, rfl, rfl⟩

/-- C9: for every pixel type `T` — unconstrained, as the binder `T : Type`
carries no instance requirement — the default-constructed view is the very
same view as the empty-constructed one, hence observably identical in
`width`, `height`, and pixel absence. -/
theorem default_view_eq_new_view (T : Type) (szXI S x y : Nat) :
    Image.default T szXI = Image.new T szXI ∧
    Image.width (Image.default T szXI) = Image.width (Image.new T szXI) ∧
    Image.height (Image.default T szXI) = Image.height (Image.new T szXI) ∧
    Image.pixel S (Image.default T szXI) x y =
      Image.pixel S (Image.new T szXI) x y ∧
    Image.pixel S (Image.default T szXI) x y = none :=
  ⟨rfl, rfl, rfl, rfl, rfl⟩

/-- C10: `width()` and `height()` return the descriptor's raw field values
unmodified; as total functions of the view they always succeed, and in the
state-passing embedding they leave the view unchanged. -/
theorem width_height_return_raw_fields {T : Type} (img : Image T) :
    Image.width img = img.xi_img.width ∧
    Image.height img = img.xi_img.height ∧
    Image.widthCall img = (img.xi_img.width, img) ∧
    Image.heightCall img = (img.xi_img.height, img) :=
  ⟨rfl, rfl, rfl, rfl⟩
